import Mathlib

/-!
Verification development for the Universal Sigil Generator's encoding core
(`core.py`, `methods.py`).  Python strings are modelled as `List Char`,
floating-point geometry as exact reals, wall-clock/astronomy inputs as
injected rational parameters, and exceptions as `Except String`.
The data tables of `config.py` are not part of the available sources and
are modelled from the specification where marked.
-/

/-- Point in the plane, as produced by the encoders. -/
abbrev Pt := ℝ × ℝ

/-- Modelled from Python's `str.upper` (per character): ASCII lowercase is
uppercased and the accented/decorated lowercase letters manipulated by this
program map to their uppercase forms; other characters are unchanged. -/
def lowerUpperPairs : List (Char × Char) :=
  [('á','Á'), ('é','É'), ('í','Í'), ('ó','Ó'), ('ú','Ú'), ('ü','Ü'),
   ('ñ','Ñ'), ('ç','Ç'), ('à','À'), ('è','È'), ('ì','Ì'), ('ò','Ò'),
   ('ù','Ù'), ('â','Â'), ('ê','Ê'), ('î','Î'), ('ô','Ô'), ('û','Û'),
   ('ä','Ä'), ('ë','Ë'), ('ï','Ï'), ('ö','Ö'), ('ã','Ã'), ('õ','Õ'),
   ('ø','Ø')]

/-- Per-character model of Python `str.upper`. -/
def pyUpperChar (c : Char) : Char :=
  if 97 ≤ c.toNat ∧ c.toNat ≤ 122 then Char.ofNat (c.toNat - 32)
  else (lowerUpperPairs.lookup c).getD c

/-- Modelled from Python's `str.isalpha`: true on Unicode letters.  The model
covers ASCII letters plus the extended Latin and Hebrew letters this
development manipulates (and representative further letters such as `Ø`). -/
def extraAlphaChars : List Char :=
  ['Á','É','Í','Ó','Ú','Ü','Ñ','Ç','á','é','í','ó','ú','ü','ñ','ç',
   'À','È','Ì','Ò','Ù','Ø','ø','ß',
   'א','ב','ג','ד','ה','ו','ז','ח','ט','י','כ','ל','מ','נ','ס','ע',
   'פ','צ','ק','ר','ש','ת']

/-- Model of Python `str.isalpha` (see `extraAlphaChars`). -/
def pyIsAlpha (c : Char) : Bool :=
  c.isAlpha || extraAlphaChars.contains c

/-- Model of Python `str.isdigit` restricted to the ASCII digits `0`-`9`
(the only digit characters produced by this program's normalization). -/
def pyIsDigit (c : Char) : Bool :=
  48 ≤ c.toNat && c.toNat ≤ 57

/-- Python `int()` truncation (toward zero) on rationals. -/
def pyInt (q : ℚ) : ℤ :=
  if 0 ≤ q then ⌊q⌋ else -⌊-q⌋

/-- Python `str.title` on a single lowercase word: first letter uppercased. -/
def pyTitle (s : String) : String :=
  match s.toList with
  | [] => ""
  | c :: cs => String.mk (pyUpperChar c :: cs)

/-!  Data tables.  `config.py` is imported by the sources but is not among
them; every table below is modelled from the specification. -/

/-- The 26 basic Latin letters, `LETTERS_LATIN` of `config.py`. -/
def LETTERS_LATIN : List Char :=
  ['A','B','C','D','E','F','G','H','I','J','K','L','M',
   'N','O','P','Q','R','S','T','U','V','W','X','Y','Z']

/-- Modelled from the spec: the special characters kept by Latin
normalization (`Ñ Ç Á É Í Ó Ú Ü`). -/
def EXTRA_LATIN : List Char := ['Ñ','Ç','Á','É','Í','Ó','Ú','Ü']

/-- Modelled from the spec: `LETTERS_EXT` of `config.py`, the "Latin
26+special" ordered alphabet. -/
def LETTERS_EXT : List Char := LETTERS_LATIN ++ EXTRA_LATIN

/-- Modelled from the spec: `ALPHABET` of `config.py`, the ordered indexed
set used for angular placement (Latin 26+special). -/
def ALPHABET : List Char := LETTERS_EXT

/-- Modelled from the spec: `LETTERS_HEBREW` of `config.py`, the 22 Hebrew
letters. -/
def LETTERS_HEBREW : List Char :=
  ['א','ב','ג','ד','ה','ו','ז','ח','ט','י','כ','ל','מ','נ','ס','ע',
   'פ','צ','ק','ר','ש','ת']

/-- The ASCII digit characters. -/
def DIGIT_CHARS : List Char := ['0','1','2','3','4','5','6','7','8','9']

/-- Characters kept by Latin normalization (`[^A-ZÑÇÁÉÍÓÚÜ0-9]` removed). -/
def LATIN_KEEP : List Char := LETTERS_EXT ++ DIGIT_CHARS

/-- Characters kept by Hebrew normalization. -/
def HEBREW_KEEP : List Char := LETTERS_HEBREW ++ DIGIT_CHARS

/-- Modelled from the spec: `PLANETARY_ORDER` of `config.py`, the fixed
Chaldean 7-planet sequence (Saturn, Jupiter, Mars, Sun, Venus, Mercury,
Moon). -/
def PLANETARY_ORDER : List String :=
  ["Saturn", "Jupiter", "Mars", "Sun", "Venus", "Mercury", "Moon"]

/-- Modelled from the spec: the traditional planetary ruler of each weekday
(Monday = 0), referenced by the sentence "hour 1 of each day is ruled by
that day's planetary ruler". -/
def day_ruler_classical (weekday : ℕ) : String :=
  ["Moon", "Mars", "Mercury", "Jupiter", "Venus", "Saturn", "Sun"].getD weekday ""

/-- Modelled from the spec: `DECANATES` of `config.py`, a fixed table
mapping each zodiac sign to its three decan rulers. -/
def DECANATES : List (String × List String) :=
  [("aries", ["Mars", "Sun", "Venus"]),
   ("taurus", ["Mercury", "Moon", "Saturn"]),
   ("gemini", ["Jupiter", "Mars", "Sun"]),
   ("cancer", ["Venus", "Mercury", "Moon"]),
   ("leo", ["Saturn", "Jupiter", "Mars"]),
   ("virgo", ["Sun", "Venus", "Mercury"]),
   ("libra", ["Moon", "Saturn", "Jupiter"]),
   ("scorpio", ["Mars", "Sun", "Venus"]),
   ("sagittarius", ["Mercury", "Moon", "Saturn"]),
   ("capricorn", ["Jupiter", "Mars", "Sun"]),
   ("aquarius", ["Venus", "Mercury", "Moon"]),
   ("pisces", ["Saturn", "Jupiter", "Mars"])]

/-- Modelled from the spec: `PLANETARY_MAP` of `config.py`, the Golden-Dawn
letter correspondence of the 7 planets; a letter may belong to several
planets' sets (here `Z`). -/
def PLANETARY_MAP : List (String × List Char) :=
  [("saturn", ['A','H','O','V']),
   ("jupiter", ['B','I','P','W']),
   ("mars", ['C','J','Q','X']),
   ("sun", ['D','K','R','Y']),
   ("venus", ['E','L','S','Z']),
   ("mercury", ['F','M','T']),
   ("moon", ['G','N','U','Z'])]

/-- Modelled from the spec: the `up` arm of `ROSE_CROSS_MAP`. -/
def RC_up : List Char := ['A','F','K','P','U']

/-- Modelled from the spec: the `down` arm of `ROSE_CROSS_MAP`. -/
def RC_down : List Char := ['B','G','L','Q','V']

/-- Modelled from the spec: the `right` arm of `ROSE_CROSS_MAP`. -/
def RC_right : List Char := ['C','H','M','R','W']

/-- Modelled from the spec: the `left` arm of `ROSE_CROSS_MAP`. -/
def RC_left : List Char := ['D','I','N','S','X']

/-- Modelled from the spec: the `center` group of `ROSE_CROSS_MAP`. -/
def RC_center : List Char := ['E','J','O','T','Y','Z']

/-- Modelled from the spec: `KAMEA_SQUARES` of `config.py`, the planetary
magic squares, 3×3 (Saturn) through 9×9 (Moon), each an N×N grid holding
1..N² exactly once. -/
def KAMEA_SQUARES : List (String × List (List ℕ)) :=
  [("saturn", [[4,9,2],[3,5,7],[8,1,6]]),
   ("jupiter", [[4,14,15,1],[9,7,6,12],[5,11,10,8],[16,2,3,13]]),
   ("mars", [[11,24,7,20,3],[4,12,25,8,16],[17,5,13,21,9],
             [10,18,1,14,22],[23,6,19,2,15]]),
   ("sun", [[6,32,3,34,35,1],[7,11,27,28,8,30],[19,14,16,15,23,24],
            [18,20,22,21,17,13],[25,29,10,9,26,12],[36,5,33,4,2,31]]),
   ("venus", [[22,47,16,41,10,35,4],[5,23,48,17,42,11,29],
              [30,6,24,49,18,36,12],[13,31,7,25,43,19,37],
              [38,14,32,1,26,44,20],[21,39,8,33,2,27,45],
              [46,15,40,9,34,3,28]]),
   ("mercury", [[8,58,59,5,4,62,63,1],[49,15,14,52,53,11,10,56],
                [41,23,22,44,45,19,18,48],[32,34,35,29,28,38,39,25],
                [40,26,27,37,36,30,31,33],[17,47,46,20,21,43,42,24],
                [9,55,54,12,13,51,50,16],[64,2,3,61,60,6,7,57]]),
   ("moon", [[37,78,29,70,21,62,13,54,5],[6,38,79,30,71,22,63,14,46],
             [47,7,39,80,31,72,23,55,15],[16,48,8,40,81,32,64,24,56],
             [57,17,49,9,41,73,33,65,25],[26,58,18,50,1,42,74,34,66],
             [67,27,59,10,51,2,43,75,35],[36,68,19,60,11,52,3,44,76],
             [77,28,69,20,61,12,53,4,45]])]

/-!  `core.py`. -/

/-- The `replacements` table of `preserve_special_characters`. -/
def preserveReplacements : List (Char × Char) :=
  [('á','Á'), ('é','É'), ('í','Í'), ('ó','Ó'), ('ú','Ú'), ('ü','Ü'),
   ('Á','Á'), ('É','É'), ('Í','Í'), ('Ó','Ó'), ('Ú','Ú'), ('Ü','Ü'),
   ('ñ','Ñ'), ('Ñ','Ñ'), ('ç','Ç'), ('Ç','Ç')]

/-- Modelled from Python's `unicodedata` NFD decomposition with combining
marks removed: precomposed accented Latin letters map to their base letter,
characters without a decomposition (all characters of the allowed
alphabets) are unchanged. -/
def nfdTable : List (Char × Char) :=
  [('À','A'), ('Â','A'), ('Ã','A'), ('Ä','A'), ('Å','A'),
   ('È','E'), ('Ê','E'), ('Ë','E'), ('Ì','I'), ('Î','I'), ('Ï','I'),
   ('Ò','O'), ('Ô','O'), ('Õ','O'), ('Ö','O'), ('Ù','U'), ('Û','U'),
   ('Ý','Y')]

/-- NFD-decompose one character and drop combining marks (see `nfdTable`). -/
def nfdStrip (c : Char) : List Char :=
  match nfdTable.lookup c with
  | some b => [b]
  | none => [c]

/-- One character of `preserve_special_characters`. -/
def preserveChar (c : Char) : List Char :=
  match preserveReplacements.lookup c with
  | some r => [r]
  | none => nfdStrip c

/-- `preserve_special_characters` of `core.py`. -/
def preserve_special_characters (s : List Char) : List Char :=
  (s.map preserveChar).flatten

/-- `normalize_text` of `core.py`. -/
def normalize_text (phrase : List Char) (alphabet : String) : Except String (List Char) :=
  let s := preserve_special_characters (phrase.map pyUpperChar)
  if alphabet = "latin" then .ok (s.filter (fun c => LATIN_KEEP.contains c))
  else if alphabet = "hebrew" then .ok (s.filter (fun c => HEBREW_KEEP.contains c))
  else .error ("Unsupported alphabet: " ++ alphabet)

/-- The `alpha_index` dictionary of `config.py`: position of a character in
`ALPHABET`, `none` when the character is not a key (Python `KeyError`). -/
def alpha_index (ch : Char) : Option ℕ :=
  ALPHABET.findIdx? (fun c => c == ch)

/-- `get_letter_position` of `core.py`; `none` models the `KeyError` raised
by `alpha_index[ch]` on a character outside `ALPHABET`. -/
noncomputable def get_letter_position (ch : Char) (cx cy radius rotation_deg : ℝ) : Option Pt :=
  match alpha_index ch with
  | none => none
  | some idx =>
    let angle : ℝ := ((idx : ℝ) / (ALPHABET.length : ℝ)) * (2 * Real.pi)
      - Real.pi / 2 + rotation_deg * Real.pi / 180
    some (cx + radius * Real.cos angle, cy + radius * Real.sin angle)

/-- The vowel set of `clean_spare_text` (`AEIOUÁÉÍÓÚÜ`). -/
def VOWELS : List Char := ['A','E','I','O','U','Á','É','Í','Ó','Ú','Ü']

/-- The character walk of `clean_spare_text`, with its `seen` set. -/
def cleanSpareAux : List Char → List Char → List Char
  | [], _ => []
  | c :: cs, seen =>
    if pyIsAlpha c && !VOWELS.contains c && !seen.contains c then
      c :: cleanSpareAux cs (c :: seen)
    else
      cleanSpareAux cs seen

/-- `clean_spare_text` of `core.py`. -/
def clean_spare_text (phrase : List Char) : List Char :=
  cleanSpareAux (phrase.map pyUpperChar) []

/-- One day, with datetimes modelled as rational time coordinates in
seconds (`timedelta(days=1)` of the source). -/
def oneDay : ℚ := 86400

/-- Planetary-hour part of `get_current_planetary_influence` in `core.py`:
sunrise and sunset of the current date and `now` are the values the source
obtains from `astral` and the system clock, injected here as rational time
coordinates in seconds; `weekday` is Monday = 0.  As in the source, the
night duration is `(sunrise + timedelta(days=1)) - sunset` divided by
12. -/
def planetary_hour_ruler (sunrise sunset now : ℚ) (weekday : ℕ) : String :=
  let duration : ℚ :=
    if sunrise ≤ now ∧ now ≤ sunset then (sunset - sunrise) / 12
    else ((sunrise + oneDay) - sunset) / 12
  let start : ℚ := if sunrise ≤ now ∧ now ≤ sunset then sunrise else sunset
  let idx : ℤ := pyInt ((now - start) / duration)
  let ruler_index : ℤ := ((weekday : ℤ) + idx) % 7
  PLANETARY_ORDER.getD ruler_index.toNat ""

/-- `get_current_planetary_influence` of `core.py`, with the outside
inputs (astral sunrise/sunset, system clock, Swiss Ephemeris solar
longitude) injected as parameters; returns
(planetary_hour, sign, decan_ruler). -/
def get_current_planetary_influence (sunrise sunset now : ℚ)
    (weekday : ℕ) (sunLongitude : ℚ) : String × String × String :=
  let hour := planetary_hour_ruler sunrise sunset now weekday
  let sign_idx : ℤ := ⌊sunLongitude / 30⌋
  let signs := DECANATES.map (fun p => p.1)
  let sign_name := signs.getD sign_idx.toNat ""
  let degree_in_sign : ℚ := sunLongitude - 30 * ⌊sunLongitude / 30⌋
  let decan_idx : ℤ := ⌊degree_in_sign / 10⌋
  let decan_ruler := ((DECANATES.lookup sign_name).getD []).getD decan_idx.toNat ""
  (hour, sign_name, decan_ruler)

/-!  `methods.py`. -/

/-- Error message of the classical method's empty-result gate. -/
def classicalEmptyMsg : String :=
  "Classic method requires at least one valid consonant after cleaning."

/-- Error message modelling the Python `KeyError` raised by
`get_letter_position` on a character outside `ALPHABET`. -/
def keyErrorMsg : String := "KeyError"

/-- Error message of the numeric method's empty-result gate. -/
def numericEmptyMsg : String :=
  "Numeric method requires at least one digit or valid A–Z letter."

/-- Error message of the planetary method's empty-result gate. -/
def planetaryEmptyMsg : String :=
  "Planetary method requires valid A–Z letters mapped to a planet."

/-- Error message of the kamea method's empty-result gate. -/
def kameaEmptyMsg (planet alphabet : String) : String :=
  "Kamea method requires valid characters in " ++ pyTitle planet ++
    " Kamea with " ++ alphabet ++ " alphabet."

/-- Error message of the rosicrucian method's empty-result gate. -/
def roseEmptyMsg : String := "Rosicrucian requires valid A–Z letters."

/-- Sequence `get_letter_position` over a list, stopping at the first
failed lookup (the list comprehension of `classical`, where a `KeyError`
aborts the whole comprehension). -/
noncomputable def letterPositions (cx cy radius rotation_deg : ℝ) :
    List Char → Option (List Pt)
  | [] => some []
  | c :: cs =>
    match get_letter_position c cx cy radius rotation_deg with
    | none => none
    | some p =>
      match letterPositions cx cy radius rotation_deg cs with
      | none => none
      | some ps => some (p :: ps)

/-- `classical` of `methods.py`. -/
noncomputable def classical (text : List Char) (cx cy radius rotation_deg : ℝ) :
    Except String (List Pt) :=
  match letterPositions cx cy radius rotation_deg (clean_spare_text text) with
  | none => .error keyErrorMsg
  | some points =>
    if points.isEmpty then .error classicalEmptyMsg else .ok points

/-- Sum of decimal digits (the `sum(int(d) for d in str(n))` step). -/
def digitSum (n : ℕ) : ℕ :=
  if n < 10 then n else digitSum (n / 10) + n % 10
termination_by n
decreasing_by simp_wf; omega

/-- `reduce_number` of `methods.py`: repeated digit-summing down to a
single digit. -/
def reduce_number (n : ℕ) : ℕ :=
  if n ≤ 9 then n else reduce_number (digitSum n)
termination_by n
decreasing_by
  simp_wf
  rename_i h
  have h10 : 10 ≤ n := by omega
  clear h
  induction n using Nat.strong_induction_on with
  | _ n ih =>
    rw [digitSum]
    have hd : ¬ n < 10 := by omega
    simp only [hd, if_false]
    by_cases h2 : n / 10 < 10
    · rw [digitSum]
      simp only [h2, if_true]
      omega
    · have := ih (n / 10) (by omega) (by omega)
      omega

/-- The per-character value branch of `numeric`: digits first
(`reduce_number(int(ch))`), then the cyclic 1–9 letter mapping built from
`LETTERS_LATIN`, otherwise skipped. -/
def charNumericValue (ch : Char) : Option ℕ :=
  if pyIsDigit ch then some (reduce_number (ch.toNat - 48))
  else
    match LETTERS_LATIN.findIdx? (fun c => c == ch) with
    | some i => some (i % 9 + 1)
    | none => none

/-- The values the numeric method extracts from an input text (after its
internal Latin normalization). -/
def numericValuesOf (text : List Char) : List ℕ :=
  ((preserve_special_characters (text.map pyUpperChar)).filter
    (fun c => LATIN_KEEP.contains c)).filterMap charNumericValue

/-- `numeric` of `methods.py`. -/
noncomputable def numeric (text : List Char) (cx cy radius rotation_deg : ℝ) :
    Except String (List Pt) :=
  match normalize_text text "latin" with
  | .error e => .error e
  | .ok t =>
    let points := (t.filterMap charNumericValue).map (fun (v : ℕ) =>
      (cx + radius * Real.cos (((v : ℝ) / 9) * (2 * Real.pi) - Real.pi / 2),
       cy + radius * Real.sin (((v : ℝ) / 9) * (2 * Real.pi) - Real.pi / 2)))
    if points.isEmpty then .error numericEmptyMsg else .ok points

/-- Indices of the planets whose letter set contains `ch`, in the fixed
enumeration order of `PLANETARY_MAP`. -/
def planetMatchIdxs (ch : Char) : List ℕ :=
  PLANETARY_MAP.enum.filterMap (fun ip =>
    if ip.2.2.contains ch then some ip.1 else none)

/-- `planetary` of `methods.py`. -/
noncomputable def planetary (text : List Char) (cx cy radius rotation_deg : ℝ) :
    Except String (List Pt) :=
  match normalize_text text "latin" with
  | .error e => .error e
  | .ok t =>
    let points := t.flatMap (fun ch => (planetMatchIdxs ch).map (fun (idx : ℕ) =>
      (cx + radius * Real.cos (((idx : ℝ) / (PLANETARY_MAP.length : ℝ)) * (2 * Real.pi) - Real.pi / 2),
       cy + radius * Real.sin (((idx : ℝ) / (PLANETARY_MAP.length : ℝ)) * (2 * Real.pi) - Real.pi / 2))))
    if points.isEmpty then .error planetaryEmptyMsg else .ok points

/-- The per-character lookup target of `kamea`: letters cycle over
`1..size²`, digit characters contribute their literal value, anything else
is skipped. -/
def charKameaTarget (letters : List Char) (size : ℕ) (ch : Char) : Option ℕ :=
  match letters.findIdx? (fun c => c == ch) with
  | some i => some (i % (size * size) + 1)
  | none => if pyIsDigit ch then some (ch.toNat - 48) else none

/-- Row-major scan of a magic square for the cells holding `target`. -/
def matchCells (square : List (List ℕ)) (target : ℕ) : List (ℕ × ℕ) :=
  square.enum.flatMap (fun rr =>
    rr.2.enum.filterMap (fun cv =>
      if cv.2 = target then some (rr.1, cv.1) else none))

/-- Cells of `square` matched by one input character of `kamea`. -/
def kameaCellsFor (square : List (List ℕ)) (letters : List Char) (ch : Char) :
    List (ℕ × ℕ) :=
  match charKameaTarget letters square.length ch with
  | none => []
  | some t => matchCells square t

/-- Center of a Kamea cell (`row`, `col`) in the drawing square. -/
noncomputable def cellCenter (cx cy radius : ℝ) (size : ℕ) (rc : ℕ × ℕ) : Pt :=
  let cell_size : ℝ := radius * 2 / (size : ℝ)
  (cx - radius + (rc.2 : ℝ) * cell_size + cell_size / 2,
   cy - radius + (rc.1 : ℝ) * cell_size + cell_size / 2)

/-- `kamea` of `methods.py`. -/
noncomputable def kamea (text : List Char) (cx cy radius rotation_deg : ℝ)
    (planet alphabet : String) : Except String (List Pt) :=
  match KAMEA_SQUARES.lookup planet with
  | none => .error ("Unknown planet: " ++ planet)
  | some square =>
    match (if alphabet = "latin" then some LETTERS_EXT
           else if alphabet = "hebrew" then some LETTERS_HEBREW else none) with
    | none => .error ("Unsupported alphabet: " ++ alphabet)
    | some letters =>
      let points := (text.flatMap (kameaCellsFor square letters)).map
        (cellCenter cx cy radius square.length)
      if points.isEmpty then .error (kameaEmptyMsg planet alphabet) else .ok points

/-- Whether a character belongs to any Rose Cross group. -/
def roseMatched (ch : Char) : Bool :=
  RC_up.contains ch || RC_down.contains ch || RC_right.contains ch ||
    RC_left.contains ch || RC_center.contains ch

/-- The per-character placement of `rosicrucian`. -/
noncomputable def rosePoint (cx cy step : ℝ) (ch : Char) : Option Pt :=
  if RC_up.contains ch then
    some (cx, cy - ((RC_up.findIdx (fun c => c == ch) : ℝ) + 1) * step)
  else if RC_down.contains ch then
    some (cx, cy + ((RC_down.findIdx (fun c => c == ch) : ℝ) + 1) * step)
  else if RC_right.contains ch then
    some (cx + ((RC_right.findIdx (fun c => c == ch) : ℝ) + 1) * step, cy)
  else if RC_left.contains ch then
    some (cx - ((RC_left.findIdx (fun c => c == ch) : ℝ) + 1) * step, cy)
  else if RC_center.contains ch then
    some (cx + step * Real.cos (((RC_center.findIdx (fun c => c == ch) : ℝ) / (RC_center.length : ℝ)) * (2 * Real.pi)),
          cy + step * Real.sin (((RC_center.findIdx (fun c => c == ch) : ℝ) / (RC_center.length : ℝ)) * (2 * Real.pi)))
  else none

/-- `rosicrucian` of `methods.py`. -/
noncomputable def rosicrucian (text : List Char) (cx cy radius rotation_deg : ℝ) :
    Except String (List Pt) :=
  let step := radius / 6
  let points := text.filterMap (rosePoint cx cy step)
  if points.isEmpty then .error roseEmptyMsg else .ok points

/-!  Spec-side definitions and helper lemmas. -/

/-- Keep the first occurrence of each character, dropping later
duplicates. -/
def dedupFirst : List Char → List Char
  | [] => []
  | c :: cs => c :: dedupFirst (cs.filter (fun x => x != c))
termination_by l => l.length
decreasing_by simp_wf; exact Nat.lt_succ_of_le (List.length_filter_le _ _)

/-- `reduceSpare` as the spec words it: uppercase, keep alphabetic
non-vowels, collapse duplicates keeping the first occurrence. -/
def reduceSpareSpec (phrase : List Char) : List Char :=
  dedupFirst ((phrase.map pyUpperChar).filter
    (fun c => pyIsAlpha c && !VOWELS.contains c))

/-- The planet-sector indices the planetary method matches on an input
text (after its internal Latin normalization). -/
def planetMatchesOf (text : List Char) : List ℕ :=
  ((preserve_special_characters (text.map pyUpperChar)).filter
    (fun c => LATIN_KEEP.contains c)).flatMap planetMatchIdxs

theorem mem_dedupFirst {x : Char} : ∀ {l : List Char}, x ∈ dedupFirst l ↔ x ∈ l := by
  intro l
  induction l using dedupFirst.induct with
  | case1 => simp [dedupFirst]
  | case2 c cs ih =>
    rw [dedupFirst]
    constructor
    · intro h
      rcases List.mem_cons.1 h with rfl | h2
      · exact List.mem_cons_self _ _
      · exact List.mem_cons_of_mem _ (List.mem_of_mem_filter (ih.1 h2))
    · intro h
      rcases List.mem_cons.1 h with rfl | h2
      · exact List.mem_cons_self _ _
      · by_cases hx : x = c
        · subst hx; exact List.mem_cons_self _ _
        · refine List.mem_cons_of_mem _ (ih.2 ?_)
          exact List.mem_filter.2 ⟨h2, by simp [hx]⟩

theorem nodup_dedupFirst : ∀ l : List Char, (dedupFirst l).Nodup := by
  intro l
  induction l using dedupFirst.induct with
  | case1 => simp [dedupFirst]
  | case2 c cs ih =>
    rw [dedupFirst]
    refine List.nodup_cons.2 ⟨?_, ih⟩
    intro hmem
    have := List.mem_filter.1 (mem_dedupFirst.1 hmem)
    simp at this

theorem cleanSpareAux_eq : ∀ (l seen : List Char),
    cleanSpareAux l seen =
      dedupFirst (l.filter
        (fun c => pyIsAlpha c && !VOWELS.contains c && !seen.contains c)) := by
  intro l
  induction l with
  | nil => intro seen; simp [cleanSpareAux, dedupFirst]
  | cons c cs ih =>
    intro seen
    by_cases h : (pyIsAlpha c && !VOWELS.contains c && !seen.contains c) = true
    · rw [cleanSpareAux, if_pos h, List.filter_cons, if_pos h, dedupFirst, ih (c :: seen)]
      congr 1
      rw [List.filter_filter]
      refine congrArg dedupFirst (List.filter_congr ?_)
      intro a _
      by_cases h4 : a = c
      · subst h4; simp [List.contains_cons, bne]
      · simp [List.contains_cons, bne, h4, Ne.symm h4]
    · rw [cleanSpareAux, if_neg h, List.filter_cons, if_neg h, ih seen]

theorem clean_spare_eq_dedup (phrase : List Char) :
    clean_spare_text phrase =
      dedupFirst ((phrase.map pyUpperChar).filter
        (fun c => pyIsAlpha c && !VOWELS.contains c)) := by
  rw [clean_spare_text, cleanSpareAux_eq]
  congr 1
  refine List.filter_congr ?_
  intro a _
  simp

theorem clean_spare_nodup (phrase : List Char) : (clean_spare_text phrase).Nodup := by
  rw [clean_spare_eq_dedup]; exact nodup_dedupFirst _

theorem mem_clean_spare (phrase : List Char) (c : Char) :
    c ∈ clean_spare_text phrase ↔
      c ∈ phrase.map pyUpperChar ∧ pyIsAlpha c ∧ ¬ c ∈ VOWELS := by
  rw [clean_spare_eq_dedup, mem_dedupFirst, List.mem_filter]
  simp

theorem letterPositions_eq_map (cx cy radius rot : ℝ) (g : Char → Pt) :
    ∀ l : List Char, (∀ c ∈ l, get_letter_position c cx cy radius rot = some (g c)) →
    letterPositions cx cy radius rot l = some (l.map g) := by
  intro l
  induction l with
  | nil => intro; rfl
  | cons c cs ih =>
    intro h
    rw [letterPositions, h c (List.mem_cons_self _ _),
      ih (fun a ha => h a (List.mem_cons_of_mem _ ha))]
    simp

theorem letterPositions_length (cx cy radius rot : ℝ) :
    ∀ (l : List Char) ps, letterPositions cx cy radius rot l = some ps →
      ps.length = l.length := by
  intro l
  induction l with
  | nil =>
    intro ps h
    rw [letterPositions] at h
    cases h
    rfl
  | cons c cs ih =>
    intro ps h
    rw [letterPositions] at h
    cases h1 : get_letter_position c cx cy radius rot with
    | none => rw [h1] at h; cases h
    | some p =>
      rw [h1] at h
      cases h2 : letterPositions cx cy radius rot cs with
      | none => rw [h2] at h; cases h
      | some ps2 =>
        rw [h2] at h
        cases h
        simp [ih ps2 h2]

theorem lookup_none_of_not_mem_keys {β : Type} (k : String) :
    ∀ l : List (String × β), k ∉ l.map Prod.fst → l.lookup k = none := by
  intro l
  induction l with
  | nil => intro; rfl
  | cons p ps ih =>
    intro h
    have h1 : k ≠ p.1 := by intro he; exact h (by simp [he])
    have h2 : k ∉ ps.map Prod.fst := fun hm => h (by simp [hm])
    have h3 : (k == p.1) = false := beq_eq_false_iff_ne.2 h1
    simp [List.lookup, h3, ih h2]

/-- C4: for every text and every planet key outside the known Kamea square
keys, `kamea` fails with the `UnknownPlanet` error before any other
computation (for any text and any alphabet argument, including invalid
alphabets). -/
theorem kamea_unknown_planet :
    ∀ (text : List Char) (cx cy radius rotation_deg : ℝ) (planet alphabet : String),
      planet ∉ KAMEA_SQUARES.map Prod.fst →
      kamea text cx cy radius rotation_deg planet alphabet =
        .error ("Unknown planet: " ++ planet) := by
  intro text cx cy radius rot planet alphabet h
  rw [kamea, lookup_none_of_not_mem_keys planet KAMEA_SQUARES h]

/-- Witness for C4: the unknown planet `pluto` (with an invalid alphabet
argument and non-empty text, showing the check precedes everything). -/
theorem kamea_unknown_planet_witness :
    kamea ['A'] 0 0 1 0 "pluto" "klingon" = .error ("Unknown planet: " ++ "pluto") :=
  kamea_unknown_planet ['A'] 0 0 1 0 "pluto" "klingon" (by decide)

/-- C8: the planetary-influence oracle is a pure function of the injected
time/location data — equal inputs give equal `(hour ruler, sign, decan
ruler)` outputs on every call; the embedding has no other state. -/
theorem influence_deterministic :
    ∀ (sr ss now : ℚ) (wd : ℕ) (lon : ℚ) (sr2 ss2 now2 : ℚ) (wd2 : ℕ) (lon2 : ℚ),
      sr = sr2 → ss = ss2 → now = now2 → wd = wd2 → lon = lon2 →
      get_current_planetary_influence sr ss now wd lon =
        get_current_planetary_influence sr2 ss2 now2 wd2 lon2 := by
  intro sr ss now wd lon sr2 ss2 now2 wd2 lon2 h1 h2 h3 h4 h5
  subst h1; subst h2; subst h3; subst h4; subst h5
  rfl

/-- Witness for C8: two calls with the same concrete inputs agree. -/
theorem influence_deterministic_witness :
    get_current_planetary_influence 360 1080 600 0 45 =
      get_current_planetary_influence 360 1080 600 0 45 :=
  influence_deterministic 360 1080 600 0 45 360 1080 600 0 45
    rfl rfl rfl rfl rfl

/-- C6: the Spare reducer equals its specification (uppercase, keep
alphabetic non-vowels, collapse duplicates keeping first occurrences), and
`reduceSpare("HELLO") = "HL"`. -/
theorem spare_reduction_spec :
    (∀ phrase : List Char, clean_spare_text phrase = reduceSpareSpec phrase)
    ∧ clean_spare_text "HELLO".toList = "HL".toList := by
  constructor
  · intro phrase
    rw [clean_spare_eq_dedup, reduceSpareSpec]
  · decide

/-- C10: the planetary, kamea and rosicrucian encoders do not depend on
`rotation_deg`; the classical encoder does. -/
theorem rotation_independence :
    (∀ (text : List Char) (cx cy radius r1 r2 : ℝ),
        planetary text cx cy radius r1 = planetary text cx cy radius r2)
    ∧ (∀ (text : List Char) (cx cy radius r1 r2 : ℝ) (planet alphabet : String),
        kamea text cx cy radius r1 planet alphabet =
          kamea text cx cy radius r2 planet alphabet)
    ∧ (∀ (text : List Char) (cx cy radius r1 r2 : ℝ),
        rosicrucian text cx cy radius r1 = rosicrucian text cx cy radius r2)
    ∧ (∃ (text : List Char) (cx cy radius r1 r2 : ℝ),
        classical text cx cy radius r1 ≠ classical text cx cy radius r2) := by
  refine ⟨fun _ _ _ _ _ _ => rfl, fun _ _ _ _ _ _ _ _ => rfl,
    fun _ _ _ _ _ _ => rfl, ⟨['B'], 0, 0, 1, 0, 180, ?_⟩⟩
  have hclean : clean_spare_text ['B'] = ['B'] := by decide
  have hidx : alpha_index 'B' = some 1 := by decide
  have hlen : (ALPHABET.length : ℝ) = 34 := by
    have : ALPHABET.length = 34 := by decide
    rw [this]; norm_num
  have hform : ∀ r : ℝ, classical ['B'] 0 0 1 r =
      .ok [((0:ℝ) + 1 * Real.cos (((1:ℝ) / 34) * (2 * Real.pi) - Real.pi / 2 + r * Real.pi / 180),
            (0:ℝ) + 1 * Real.sin (((1:ℝ) / 34) * (2 * Real.pi) - Real.pi / 2 + r * Real.pi / 180))] := by
    intro r
    rw [classical, hclean, letterPositions, get_letter_position, hidx]
    simp [letterPositions, hlen]
  intro h
  rw [hform 0, hform 180] at h
  simp only [Except.ok.injEq, List.cons.injEq, Prod.mk.injEq, and_true] at h
  have hcos := h.1
  have hang : ((1:ℝ) / 34) * (2 * Real.pi) - Real.pi / 2 + 180 * Real.pi / 180 =
      (((1:ℝ) / 34) * (2 * Real.pi) - Real.pi / 2 + 0 * Real.pi / 180) + Real.pi := by ring
  rw [hang, Real.cos_add_pi] at hcos
  have hpos : 0 < Real.cos (((1:ℝ) / 34) * (2 * Real.pi) - Real.pi / 2 + 0 * Real.pi / 180) := by
    have h1 : ((1:ℝ) / 34) * (2 * Real.pi) - Real.pi / 2 + 0 * Real.pi / 180 =
        -(Real.pi / 2 - Real.pi / 17) := by ring
    rw [h1, Real.cos_neg, Real.cos_pi_div_two_sub]
    exact Real.sin_pos_of_pos_of_lt_pi (by positivity)
      (div_lt_self Real.pi_pos (by norm_num))
  nlinarith [hcos, hpos]

theorem dist_point_on_circle (cx cy radius θ : ℝ) (hr : 0 ≤ radius) :
    Real.sqrt ((cx + radius * Real.cos θ - cx)^2 + (cy + radius * Real.sin θ - cy)^2) = radius := by
  have h2 := Real.cos_sq_add_sin_sq θ
  have h1 : (cx + radius * Real.cos θ - cx)^2 + (cy + radius * Real.sin θ - cy)^2 = radius^2 := by
    nlinarith [h2]
  rw [h1]
  exact Real.sqrt_sq hr

/-- C2: on any input whose Spare reduction is non-empty and consists of
indexed alphabet characters, the classical encoder succeeds and places each
character at angle `2π·index(ch)/|ALPHABET| − π/2 + rotation` on the circle
of the given radius: the returned points are the image of the reduced text
under a per-letter position map (so a letter's position depends only on its
fixed alphabet index, not on its position in the phrase), the point count
equals the number of distinct consonants, and every point lies at distance
exactly `radius` from the center. -/
theorem classical_geometry :
    ∀ (text : List Char) (cx cy radius rotation_deg : ℝ),
      clean_spare_text text ≠ [] →
      (∀ ch ∈ clean_spare_text text, (alpha_index ch).isSome) →
      0 ≤ radius →
      ∃ pts, classical text cx cy radius rotation_deg = .ok pts ∧
        pts = (clean_spare_text text).map (fun ch =>
          (cx + radius * Real.cos (2 * Real.pi * (((alpha_index ch).getD 0 : ℕ) : ℝ) / (ALPHABET.length : ℝ) - Real.pi / 2 + rotation_deg * Real.pi / 180),
           cy + radius * Real.sin (2 * Real.pi * (((alpha_index ch).getD 0 : ℕ) : ℝ) / (ALPHABET.length : ℝ) - Real.pi / 2 + rotation_deg * Real.pi / 180))) ∧
        pts.length = (clean_spare_text text).length ∧
        (clean_spare_text text).Nodup ∧
        ∀ p ∈ pts, Real.sqrt ((p.1 - cx)^2 + (p.2 - cy)^2) = radius := by
  intro text cx cy radius rot hne hidx hr
  have hmap : letterPositions cx cy radius rot (clean_spare_text text) =
      some ((clean_spare_text text).map (fun ch =>
        (cx + radius * Real.cos (2 * Real.pi * (((alpha_index ch).getD 0 : ℕ) : ℝ) / (ALPHABET.length : ℝ) - Real.pi / 2 + rot * Real.pi / 180),
         cy + radius * Real.sin (2 * Real.pi * (((alpha_index ch).getD 0 : ℕ) : ℝ) / (ALPHABET.length : ℝ) - Real.pi / 2 + rot * Real.pi / 180)))) := by
    apply letterPositions_eq_map
    intro c hc
    obtain ⟨i, hi⟩ := Option.isSome_iff_exists.1 (hidx c hc)
    rw [get_letter_position, hi]
    simp only [hi, Option.getD_some]
    have hang : ((i : ℝ) / (ALPHABET.length : ℝ)) * (2 * Real.pi) - Real.pi / 2 + rot * Real.pi / 180 =
        2 * Real.pi * (i : ℝ) / (ALPHABET.length : ℝ) - Real.pi / 2 + rot * Real.pi / 180 := by
      ring
    rw [hang]
  refine ⟨_, ?_, rfl, by simp, clean_spare_nodup text, ?_⟩
  · rw [classical, hmap]
    dsimp only
    rw [if_neg (by simp [List.isEmpty_iff, hne])]
  · intro p hp
    obtain ⟨ch, hch, rfl⟩ := List.mem_map.1 hp
    exact dist_point_on_circle cx cy radius _ hr

/-- Witness for C2 at the spec's own style of example: `"HELLO"` on the
unit circle centered at the origin. -/
theorem classical_geometry_witness :
    ∃ pts, classical "HELLO".toList 0 0 1 0 = .ok pts ∧
      pts = (clean_spare_text "HELLO".toList).map (fun ch =>
        ((0:ℝ) + 1 * Real.cos (2 * Real.pi * (((alpha_index ch).getD 0 : ℕ) : ℝ) / (ALPHABET.length : ℝ) - Real.pi / 2 + (0:ℝ) * Real.pi / 180),
         (0:ℝ) + 1 * Real.sin (2 * Real.pi * (((alpha_index ch).getD 0 : ℕ) : ℝ) / (ALPHABET.length : ℝ) - Real.pi / 2 + (0:ℝ) * Real.pi / 180))) ∧
      pts.length = (clean_spare_text "HELLO".toList).length ∧
      (clean_spare_text "HELLO".toList).Nodup ∧
      ∀ p ∈ pts, Real.sqrt ((p.1 - 0)^2 + (p.2 - 0)^2) = 1 :=
  classical_geometry "HELLO".toList 0 0 1 0 (by decide) (by decide) zero_le_one

theorem keep_chars_fixed_latin :
    ∀ c ∈ LATIN_KEEP, pyUpperChar c = c ∧ preserveChar c = [c] := by decide

theorem keep_chars_fixed_hebrew :
    ∀ c ∈ HEBREW_KEEP, pyUpperChar c = c ∧ preserveChar c = [c] := by decide

theorem normCore_fixed (KEEP : List Char) :
    ∀ l : List Char,
      (∀ c ∈ l, pyUpperChar c = c ∧ preserveChar c = [c] ∧ KEEP.contains c) →
      (preserve_special_characters (l.map pyUpperChar)).filter
          (fun c => KEEP.contains c) = l := by
  intro l
  induction l with
  | nil => intro _; rfl
  | cons c cs ih =>
    intro h
    obtain ⟨h1, h2, h3⟩ := h c (List.mem_cons_self _ _)
    have hrest := ih (fun a ha => h a (List.mem_cons_of_mem _ ha))
    rw [List.map_cons, h1, preserve_special_characters, List.map_cons,
      List.flatten_cons, h2]
    rw [preserve_special_characters] at hrest
    simp only [List.singleton_append, List.filter_cons, h3]
    rw [hrest]
    simp

/-- C5: `normalize` is idempotent for both alphabet selectors — it
succeeds, and normalizing its own output returns that output unchanged. -/
theorem normalize_idempotent :
    ∀ (s : List Char) (alphabet : String),
      alphabet = "latin" ∨ alphabet = "hebrew" →
      ∃ t, normalize_text s alphabet = .ok t ∧ normalize_text t alphabet = .ok t := by
  intro s a ha
  rcases ha with rfl | rfl
  · refine ⟨_, rfl, ?_⟩
    show normalize_text _ "latin" = _
    rw [normalize_text]
    rw [if_pos rfl]
    rw [normCore_fixed LATIN_KEEP]
    intro c hc
    have hmem : c ∈ LATIN_KEEP := by
      have := List.mem_filter.1 hc
      simpa using this.2
    exact ⟨(keep_chars_fixed_latin c hmem).1, (keep_chars_fixed_latin c hmem).2,
      by simpa using hmem⟩
  · refine ⟨_, rfl, ?_⟩
    show normalize_text _ "hebrew" = _
    rw [normalize_text]
    rw [if_neg (by decide), if_pos rfl]
    rw [normCore_fixed HEBREW_KEEP]
    intro c hc
    have hmem : c ∈ HEBREW_KEEP := by
      have := List.mem_filter.1 hc
      simpa using this.2
    exact ⟨(keep_chars_fixed_hebrew c hmem).1, (keep_chars_fixed_hebrew c hmem).2,
      by simpa using hmem⟩

/-- Witness for C5: normalizing `"café!"` twice (Latin mode) is the same as
normalizing it once. -/
theorem normalize_idempotent_witness :
    ∃ t, normalize_text "café!".toList "latin" = .ok t ∧
      normalize_text t "latin" = .ok t :=
  normalize_idempotent "café!".toList "latin" (Or.inl rfl)

theorem reduce_number_of_le {n : ℕ} (h : n ≤ 9) : reduce_number n = n := by
  rw [reduce_number]; simp [h]

theorem digitSum_14 : digitSum 14 = 5 := by
  rw [digitSum]; norm_num; rw [digitSum]; norm_num

theorem reduce_number_14 : reduce_number 14 = 5 := by
  rw [reduce_number]
  norm_num [digitSum_14]
  exact reduce_number_of_le (by norm_num)

/-- C3: the numeric encoder maps the letter at alphabet index `i` to
`(i mod 9) + 1`, reduces digit characters by repeated digit summing
(`14 → 5`, `9 → 9`, `0 → 0`; a single digit reduces to itself), skips every
other character, applies no rotation offset, and places each value `v` at
angle `2π·v/9 − π/2` on the circle. -/
theorem numeric_mapping :
    (reduce_number 14 = 5 ∧ reduce_number 9 = 9 ∧ reduce_number 0 = 0)
    ∧ (∀ i, i < 26 → charNumericValue (LETTERS_LATIN.getD i ' ') = some (i % 9 + 1))
    ∧ (∀ ch, pyIsDigit ch = true → charNumericValue ch = some (ch.toNat - 48))
    ∧ (∀ ch, pyIsDigit ch = false →
        LETTERS_LATIN.findIdx? (fun c => c == ch) = none → charNumericValue ch = none)
    ∧ (∀ (text : List Char) (cx cy radius r1 r2 : ℝ),
        numeric text cx cy radius r1 = numeric text cx cy radius r2)
    ∧ (∀ (text : List Char) (cx cy radius rotation_deg : ℝ) (t : List Char),
        normalize_text text "latin" = .ok t →
        numeric text cx cy radius rotation_deg =
          (if (t.filterMap charNumericValue).isEmpty then .error numericEmptyMsg
           else .ok ((t.filterMap charNumericValue).map (fun (v : ℕ) =>
             (cx + radius * Real.cos (2 * Real.pi * (v : ℝ) / 9 - Real.pi / 2),
              cy + radius * Real.sin (2 * Real.pi * (v : ℝ) / 9 - Real.pi / 2)))))) := by
  refine ⟨⟨reduce_number_14, reduce_number_of_le (by norm_num),
      reduce_number_of_le (by norm_num)⟩, by decide, ?_, ?_, fun _ _ _ _ _ _ => rfl, ?_⟩
  · intro ch h
    rw [charNumericValue, if_pos h]
    have hb : ch.toNat - 48 ≤ 9 := by
      simp [pyIsDigit] at h
      omega
    rw [reduce_number_of_le hb]
  · intro ch h1 h2
    simp [charNumericValue, h1, h2]
  · intro text cx cy radius rot t h
    rw [numeric, h]
    dsimp only
    have hmap : (t.filterMap charNumericValue).map (fun v : ℕ =>
        ((cx + radius * Real.cos (((v : ℝ) / 9) * (2 * Real.pi) - Real.pi / 2)),
         (cy + radius * Real.sin (((v : ℝ) / 9) * (2 * Real.pi) - Real.pi / 2)))) =
      (t.filterMap charNumericValue).map (fun v : ℕ =>
        ((cx + radius * Real.cos (2 * Real.pi * (v : ℝ) / 9 - Real.pi / 2)),
         (cy + radius * Real.sin (2 * Real.pi * (v : ℝ) / 9 - Real.pi / 2)))) := by
      refine List.map_congr_left ?_
      intro v _
      have hang : ((v : ℝ) / 9) * (2 * Real.pi) - Real.pi / 2 =
          2 * Real.pi * (v : ℝ) / 9 - Real.pi / 2 := by ring
      rw [hang]
    rw [hmap]
    cases hfm : List.filterMap charNumericValue t <;> simp [hfm]

/-- Witness for C3: `A ↦ 1`, `'7' ↦ 7`, `'-'` skipped, and the evaluated
output shape on the input `"7"`. -/
theorem numeric_mapping_witness :
    charNumericValue (LETTERS_LATIN.getD 0 ' ') = some (0 % 9 + 1) ∧
    charNumericValue '7' = some ('7'.toNat - 48) ∧
    charNumericValue '-' = none ∧
    numeric ['7'] 0 0 1 0 =
      (if (List.filterMap charNumericValue ['7']).isEmpty then .error numericEmptyMsg
       else .ok ((List.filterMap charNumericValue ['7']).map (fun (v : ℕ) =>
         ((0:ℝ) + 1 * Real.cos (2 * Real.pi * (v : ℝ) / 9 - Real.pi / 2),
          (0:ℝ) + 1 * Real.sin (2 * Real.pi * (v : ℝ) / 9 - Real.pi / 2))))) :=
  ⟨numeric_mapping.2.1 0 (by norm_num),
   numeric_mapping.2.2.1 '7' (by decide),
   numeric_mapping.2.2.2.1 '-' (by decide) (by decide),
   numeric_mapping.2.2.2.2.2 ['7'] 0 0 1 0 ['7'] rfl⟩

/-- C7 (amended): the planetary-hour computation divides the active
half-day — sunrise to sunset by day, sunset to `sunrise + 1 day` by
night — into 12 equal hours, locates `now` by integer division of elapsed
time by hour duration, and selects the ruler from the Chaldean order at
index `(weekday + hour_index) mod 7` (Monday = 0); consequently hour 1 of
weekday `w` is ruled by the Chaldean planet at index `w` — not, in general,
by that day's traditional ruler — and the rulers of consecutive hours cycle
through all 7 planets. -/
theorem planetary_hour_mechanism :
    (∀ (sunrise sunset now : ℚ) (weekday k : ℕ),
        sunrise < sunset → k ≤ 11 →
        sunrise + k * ((sunset - sunrise) / 12) ≤ now →
        now < sunrise + (k + 1) * ((sunset - sunrise) / 12) →
        planetary_hour_ruler sunrise sunset now weekday
          = PLANETARY_ORDER.getD ((weekday + k) % 7) "")
    ∧ (∀ (sunrise sunset now : ℚ) (weekday k : ℕ),
        sunrise < sunset → sunset < sunrise + oneDay → k ≤ 11 →
        sunset < now →
        sunset + k * (((sunrise + oneDay) - sunset) / 12) ≤ now →
        now < sunset + (k + 1) * (((sunrise + oneDay) - sunset) / 12) →
        planetary_hour_ruler sunrise sunset now weekday
          = PLANETARY_ORDER.getD ((weekday + k) % 7) "")
    ∧ (∀ w : ℕ, ∀ p ∈ PLANETARY_ORDER, ∃ k, k ≤ 6 ∧
        PLANETARY_ORDER.getD ((w + k) % 7) "" = p) := by
  refine ⟨?_, ?_, ?_⟩
  · -- daytime hours
    intro sr ss now wd k hlt hk h1 h2
    have hdpos : 0 < (ss - sr) / 12 := div_pos (by linarith) (by norm_num)
    have hk11 : (k : ℚ) ≤ 11 := by exact_mod_cast hk
    have hkd : 0 ≤ (k : ℚ) * ((ss - sr) / 12) :=
      mul_nonneg (by positivity) hdpos.le
    have hday : sr ≤ now ∧ now ≤ ss := by
      constructor
      · linarith
      · have h3 : ((k : ℚ) + 1) * ((ss - sr) / 12) ≤ 12 * ((ss - sr) / 12) := by
          apply mul_le_mul_of_nonneg_right _ hdpos.le
          linarith
        have h4 : sr + 12 * ((ss - sr) / 12) = ss := by ring
        linarith
    rw [planetary_hour_ruler]
    rw [if_pos hday, if_pos hday]
    have hq1 : (k : ℚ) ≤ (now - sr) / ((ss - sr) / 12) := by
      rw [le_div_iff₀ hdpos]; linarith
    have hq2 : (now - sr) / ((ss - sr) / 12) < (k : ℚ) + 1 := by
      rw [div_lt_iff₀ hdpos]; linarith
    have hflr : ⌊(now - sr) / ((ss - sr) / 12)⌋ = (k : ℤ) := by
      rw [Int.floor_eq_iff]
      constructor
      · exact_mod_cast hq1
      · push_cast
        exact hq2
    have hnonneg : 0 ≤ (now - sr) / ((ss - sr) / 12) := by
      have : (0 : ℚ) ≤ (k : ℚ) := by positivity
      linarith
    rw [pyInt, if_pos hnonneg, hflr]
    have htn : (((wd : ℤ) + (k : ℤ)) % 7).toNat = (wd + k) % 7 := by omega
    rw [htn]
  · -- nighttime hours
    intro sr ss now wd k hlt hwrap hk hgt h1 h2
    have hdpos : 0 < ((sr + oneDay) - ss) / 12 := div_pos (by linarith) (by norm_num)
    have hnoday : ¬ (sr ≤ now ∧ now ≤ ss) := fun hc => absurd hc.2 (not_le.2 hgt)
    rw [planetary_hour_ruler]
    rw [if_neg hnoday, if_neg hnoday]
    have hq1 : (k : ℚ) ≤ (now - ss) / (((sr + oneDay) - ss) / 12) := by
      rw [le_div_iff₀ hdpos]; linarith
    have hq2 : (now - ss) / (((sr + oneDay) - ss) / 12) < (k : ℚ) + 1 := by
      rw [div_lt_iff₀ hdpos]; linarith
    have hflr : ⌊(now - ss) / (((sr + oneDay) - ss) / 12)⌋ = (k : ℤ) := by
      rw [Int.floor_eq_iff]
      constructor
      · exact_mod_cast hq1
      · push_cast
        exact hq2
    have hnonneg : 0 ≤ (now - ss) / (((sr + oneDay) - ss) / 12) := by
      have : (0 : ℚ) ≤ (k : ℚ) := by positivity
      linarith
    rw [pyInt, if_pos hnonneg, hflr]
    have htn : (((wd : ℤ) + (k : ℤ)) % 7).toNat = (wd + k) % 7 := by omega
    rw [htn]
  · intro w p hp
    simp only [PLANETARY_ORDER, List.mem_cons, List.not_mem_nil, or_false] at hp
    rcases hp with rfl | rfl | rfl | rfl | rfl | rfl | rfl
    · exact ⟨(0 + 7 - w % 7) % 7, by omega,
        by have h : (w + (0 + 7 - w % 7) % 7) % 7 = 0 := by omega
           rw [h]; rfl⟩
    · exact ⟨(1 + 7 - w % 7) % 7, by omega,
        by have h : (w + (1 + 7 - w % 7) % 7) % 7 = 1 := by omega
           rw [h]; rfl⟩
    · exact ⟨(2 + 7 - w % 7) % 7, by omega,
        by have h : (w + (2 + 7 - w % 7) % 7) % 7 = 2 := by omega
           rw [h]; rfl⟩
    · exact ⟨(3 + 7 - w % 7) % 7, by omega,
        by have h : (w + (3 + 7 - w % 7) % 7) % 7 = 3 := by omega
           rw [h]; rfl⟩
    · exact ⟨(4 + 7 - w % 7) % 7, by omega,
        by have h : (w + (4 + 7 - w % 7) % 7) % 7 = 4 := by omega
           rw [h]; rfl⟩
    · exact ⟨(5 + 7 - w % 7) % 7, by omega,
        by have h : (w + (5 + 7 - w % 7) % 7) % 7 = 5 := by omega
           rw [h]; rfl⟩
    · exact ⟨(6 + 7 - w % 7) % 7, by omega,
        by have h : (w + (6 + 7 - w % 7) % 7) % 7 = 6 := by omega
           rw [h]; rfl⟩

/-- Counterexample for C7 as stated: at sunrise of a Monday (weekday 0,
sunrise at second 360, sunset at second 1080), hour 1 is ruled by Saturn —
the Chaldean planet at index 0 — whereas the classical rule assigns
Monday's first hour to the Moon, that day's planetary ruler. -/
theorem planetary_hour_day_ruler_cex :
    planetary_hour_ruler 360 1080 360 0 = "Saturn" ∧
    day_ruler_classical 0 = "Moon" ∧
    planetary_hour_ruler 360 1080 360 0 ≠ day_ruler_classical 0 := by
  have h1 : planetary_hour_ruler 360 1080 360 0 = "Saturn" := by
    rw [planetary_hour_ruler]
    rw [if_pos (by norm_num), if_pos (by norm_num)]
    norm_num [pyInt]
    rfl
  exact ⟨h1, rfl, by rw [h1]; decide⟩

/-- Witness for C7: Thursday (weekday 3), first daytime hour; Friday
(weekday 4), first nighttime hour; the cycle fact at weekday 2. -/
theorem planetary_hour_mechanism_witness :
    planetary_hour_ruler 0 43200 0 3 = PLANETARY_ORDER.getD ((3 + 0) % 7) "" ∧
    planetary_hour_ruler 0 43200 43300 4 = PLANETARY_ORDER.getD ((4 + 0) % 7) "" ∧
    ∃ k, k ≤ 6 ∧ PLANETARY_ORDER.getD ((2 + k) % 7) "" = "Moon" :=
  ⟨planetary_hour_mechanism.1 0 43200 0 3 0 (by norm_num) (by norm_num)
      (by norm_num) (by norm_num),
   planetary_hour_mechanism.2.1 0 43200 43300 4 0 (by norm_num)
      (by norm_num [oneDay]) (by norm_num) (by norm_num)
      (by norm_num [oneDay]) (by norm_num [oneDay]),
   planetary_hour_mechanism.2.2 2 "Moon" (by decide)⟩

theorem findIdx?_none_of_forall (p : Char → Bool) :
    ∀ (l : List Char) (s : ℕ), (∀ a ∈ l, p a = false) →
      List.findIdx? p l s = none := by
  intro l
  induction l with
  | nil => intro s _; rfl
  | cons a as ih =>
    intro s h
    rw [List.findIdx?, h a (List.mem_cons_self _ _)]
    simp only [Bool.false_eq_true, if_false]
    exact ih (s + 1) (fun x hx => h x (List.mem_cons_of_mem _ hx))

theorem digit_not_in_letters {letters : List Char} (ch : Char)
    (hall : ∀ c ∈ letters, 58 ≤ c.toNat) (hd : pyIsDigit ch = true) :
    letters.findIdx? (fun c => c == ch) = none := by
  apply findIdx?_none_of_forall
  intro a ha
  have h1 : 58 ≤ a.toNat := hall a ha
  have h2 : ch.toNat ≤ 57 := by
    simp [pyIsDigit] at hd
    omega
  refine beq_eq_false_iff_ne.2 ?_
  intro he
  subst he
  omega

theorem matchCells_eq_nil (square : List (List ℕ)) (t : ℕ)
    (h : ∀ row ∈ square, ∀ v ∈ row, v ≠ t) : matchCells square t = [] := by
  rw [matchCells, List.flatMap_eq_nil_iff]
  intro rr hrr
  rw [List.filterMap_eq_nil_iff]
  intro cv hcv
  have hrow : rr.2 ∈ square := List.snd_mem_of_mem_enum hrr
  have hv : cv.2 ∈ rr.2 := List.snd_mem_of_mem_enum hcv
  simp [h rr.2 hrow cv.2 hv]

theorem lookup_mem {β : Type} (k : String) :
    ∀ (l : List (String × β)) (v : β), l.lookup k = some v → ∃ p ∈ l, p.2 = v := by
  intro l
  induction l with
  | nil => intro v h; cases h
  | cons p ps ih =>
    intro v h
    rw [List.lookup] at h
    by_cases he : (k == p.1) = true
    · rw [he] at h
      cases h
      exact ⟨p, List.mem_cons_self _ _, rfl⟩
    · have hf : (k == p.1) = false := by simp at he; simp [he]
      rw [hf] at h
      obtain ⟨q, hq, hv⟩ := ih v h
      exact ⟨q, List.mem_cons_of_mem _ hq, hv⟩

theorem flatMap_filter_ne_zero {β : Type} (f : Char → List β) (h : f '0' = []) :
    ∀ l : List Char, (l.filter (fun c => c != '0')).flatMap f = l.flatMap f := by
  intro l
  induction l with
  | nil => rfl
  | cons c cs ih =>
    by_cases hc : c = '0'
    · subst hc
      rw [List.filter_cons, if_neg (by simp), List.flatMap_cons, h, List.nil_append, ih]
    · rw [List.filter_cons, if_pos (by simp [hc]), List.flatMap_cons, List.flatMap_cons, ih]

theorem kameaCellsFor_zero (square : List (List ℕ)) (letters : List Char)
    (hall : ∀ c ∈ letters, 58 ≤ c.toNat)
    (hsq : ∀ row ∈ square, ∀ v ∈ row, v ≠ 0) :
    kameaCellsFor square letters '0' = [] := by
  have ht : charKameaTarget letters square.length '0' = some 0 := by
    rw [charKameaTarget, digit_not_in_letters '0' hall (by decide)]
    rfl
  rw [kameaCellsFor, ht]
  exact matchCells_eq_nil square 0 hsq

/-- C9: every Kamea square's cells hold `1..N²` exactly once (rows of
length N, flattened cells a permutation of 1..N²); a digit character's
lookup target is its literal value (not cycled through size², not
digit-sum reduced) for both alphabets; therefore the character `0` matches
no cell and is silently skipped — removing every `'0'` from the input
leaves the kamea output unchanged for every planet and alphabet. -/
theorem kamea_digit_literal :
    (∀ pq ∈ KAMEA_SQUARES, (∀ row ∈ pq.2, row.length = pq.2.length) ∧
        pq.2.flatten.Perm ((List.range (pq.2.length * pq.2.length)).map (fun i => i + 1)))
    ∧ (∀ (size : ℕ) (ch : Char), pyIsDigit ch = true →
        charKameaTarget LETTERS_EXT size ch = some (ch.toNat - 48) ∧
        charKameaTarget LETTERS_HEBREW size ch = some (ch.toNat - 48))
    ∧ (∀ (text : List Char) (cx cy radius rotation_deg : ℝ) (planet alphabet : String),
        kamea text cx cy radius rotation_deg planet alphabet =
          kamea (text.filter (fun c => c != '0')) cx cy radius rotation_deg planet alphabet) := by
  refine ⟨by decide, ?_, ?_⟩
  · intro size ch hd
    constructor
    · rw [charKameaTarget,
        digit_not_in_letters ch (by decide : ∀ c ∈ LETTERS_EXT, 58 ≤ c.toNat) hd,
        if_pos hd]
    · rw [charKameaTarget,
        digit_not_in_letters ch (by decide : ∀ c ∈ LETTERS_HEBREW, 58 ≤ c.toNat) hd,
        if_pos hd]
  · intro text cx cy radius rot planet alphabet
    rw [kamea, kamea]
    cases hsq : KAMEA_SQUARES.lookup planet with
    | none => rfl
    | some square =>
      have hall7 : ∀ pq ∈ KAMEA_SQUARES, ∀ row ∈ pq.2, ∀ v ∈ row, v ≠ 0 := by decide
      have hsq0 : ∀ row ∈ square, ∀ v ∈ row, v ≠ 0 := by
        obtain ⟨pq, hpq, hv⟩ := lookup_mem planet KAMEA_SQUARES square hsq
        intro row hr
        exact hall7 pq hpq row (by rw [hv]; exact hr)
      have hpts : ∀ letters : List Char, (∀ c ∈ letters, 58 ≤ c.toNat) →
          ((text.filter (fun c => c != '0')).flatMap (kameaCellsFor square letters)) =
            text.flatMap (kameaCellsFor square letters) :=
        fun letters hl => flatMap_filter_ne_zero (kameaCellsFor square letters)
          (kameaCellsFor_zero square letters hl hsq0) text
      by_cases ha1 : alphabet = "latin"
      · simp [ha1, hpts LETTERS_EXT (by decide)]
      · by_cases ha2 : alphabet = "hebrew"
        · simp [ha1, ha2, hpts LETTERS_HEBREW (by decide)]
        · simp [ha1, ha2]

/-- Witness for C9: Saturn's square data, and the literal digit targets of
`'7'` (Latin) and `'0'` (Hebrew). -/
theorem kamea_digit_literal_witness :
    (∀ row ∈ [[4,9,2],[3,5,7],[8,1,6]], List.length row = 3) ∧
    charKameaTarget LETTERS_EXT 3 '7' = some ('7'.toNat - 48) ∧
    charKameaTarget LETTERS_HEBREW 3 '0' = some ('0'.toNat - 48) :=
  ⟨fun row hr => (kamea_digit_literal.1 ("saturn", [[4,9,2],[3,5,7],[8,1,6]])
      (by decide)).1 row hr,
   (kamea_digit_literal.2.1 3 '7' (by decide)).1,
   (kamea_digit_literal.2.1 3 '0' (by decide)).2⟩

theorem letterPositions_isSome (cx cy radius rot : ℝ) :
    ∀ l : List Char, (∀ c ∈ l, (get_letter_position c cx cy radius rot).isSome) →
      ∃ ps, letterPositions cx cy radius rot l = some ps ∧ ps.length = l.length := by
  intro l
  induction l with
  | nil => exact fun _ => ⟨[], rfl, rfl⟩
  | cons c cs ih =>
    intro h
    obtain ⟨p, hp⟩ := Option.isSome_iff_exists.1 (h c (List.mem_cons_self _ _))
    obtain ⟨ps, hps, hlen⟩ := ih (fun a ha => h a (List.mem_cons_of_mem _ ha))
    refine ⟨p :: ps, ?_, by simp [hlen]⟩
    rw [letterPositions, hp, hps]

theorem rosePoint_eq_none (cx cy step : ℝ) (ch : Char) :
    rosePoint cx cy step ch = none ↔ roseMatched ch = false := by
  rw [rosePoint, roseMatched]
  split_ifs <;> simp_all

/-- C1 (amended): each method fails with its empty-result error exactly
when its filtering/mapping stage produces zero points, and an `ok` result
is always a non-empty point list.  For numeric, planetary,
kamea-with-known-planet-and-supported-alphabet and rosicrucian a non-empty
filtering stage guarantees a non-empty `ok` result; for classical this
additionally requires every surviving consonant to have an index in the
placement alphabet — a surviving out-of-alphabet consonant makes it fail
with a `KeyError`-style lookup failure instead (see the counterexample).
The spec's examples hold: `numeric("")`, `classical("AEIOU")` and
`rosicrucian("123")` all fail with their empty-result errors. -/
theorem empty_result_gate :
    (∀ (text : List Char) (cx cy radius rotation_deg : ℝ),
        (classical text cx cy radius rotation_deg = .error classicalEmptyMsg ↔
          clean_spare_text text = [])
        ∧ (∀ pts, classical text cx cy radius rotation_deg = .ok pts → pts ≠ [])
        ∧ (clean_spare_text text ≠ [] →
            (∀ ch ∈ clean_spare_text text, (alpha_index ch).isSome) →
            ∃ pts, classical text cx cy radius rotation_deg = .ok pts ∧ pts ≠ []))
    ∧ (∀ (text : List Char) (cx cy radius rotation_deg : ℝ),
        (numeric text cx cy radius rotation_deg = .error numericEmptyMsg ↔
          numericValuesOf text = [])
        ∧ (numericValuesOf text ≠ [] →
            ∃ pts, numeric text cx cy radius rotation_deg = .ok pts ∧ pts ≠ []))
    ∧ (∀ (text : List Char) (cx cy radius rotation_deg : ℝ),
        (planetary text cx cy radius rotation_deg = .error planetaryEmptyMsg ↔
          planetMatchesOf text = [])
        ∧ (planetMatchesOf text ≠ [] →
            ∃ pts, planetary text cx cy radius rotation_deg = .ok pts ∧ pts ≠ []))
    ∧ (∀ (text : List Char) (cx cy radius rotation_deg : ℝ)
          (planet alphabet : String) (square : List (List ℕ)) (letters : List Char),
        KAMEA_SQUARES.lookup planet = some square →
        ((alphabet = "latin" ∧ letters = LETTERS_EXT) ∨
          (alphabet = "hebrew" ∧ letters = LETTERS_HEBREW)) →
        (kamea text cx cy radius rotation_deg planet alphabet =
            .error (kameaEmptyMsg planet alphabet) ↔
          text.flatMap (kameaCellsFor square letters) = [])
        ∧ (text.flatMap (kameaCellsFor square letters) ≠ [] →
            ∃ pts, kamea text cx cy radius rotation_deg planet alphabet = .ok pts ∧
              pts ≠ []))
    ∧ (∀ (text : List Char) (cx cy radius rotation_deg : ℝ),
        (rosicrucian text cx cy radius rotation_deg = .error roseEmptyMsg ↔
          text.filter roseMatched = [])
        ∧ (text.filter roseMatched ≠ [] →
            ∃ pts, rosicrucian text cx cy radius rotation_deg = .ok pts ∧ pts ≠ []))
    ∧ (∀ (cx cy radius rotation_deg : ℝ),
        numeric [] cx cy radius rotation_deg = .error numericEmptyMsg
        ∧ classical "AEIOU".toList cx cy radius rotation_deg = .error classicalEmptyMsg
        ∧ rosicrucian "123".toList cx cy radius rotation_deg = .error roseEmptyMsg) := by
  refine ⟨?_, ?_, ?_, ?_, ?_, fun _ _ _ _ => ⟨rfl, rfl, rfl⟩⟩
  · -- classical
    intro text cx cy radius rot
    refine ⟨?_, ?_, ?_⟩
    · by_cases hc : clean_spare_text text = []
      · have h0 : classical text cx cy radius rot = .error classicalEmptyMsg := by
          rw [classical, hc]
          rfl
        simp [h0, hc]
      · cases hlp : letterPositions cx cy radius rot (clean_spare_text text) with
        | none =>
          have h0 : classical text cx cy radius rot = .error keyErrorMsg := by
            rw [classical, hlp]
          rw [h0]
          constructor
          · intro he
            injection he with h1
            exact absurd h1 (by decide)
          · intro hcl
            exact absurd hcl hc
        | some ps =>
          have hlen := letterPositions_length cx cy radius rot _ ps hlp
          have hne : ps ≠ [] := by
            intro h0
            rw [h0] at hlen
            exact hc (List.eq_nil_of_length_eq_zero hlen.symm)
          have h0 : classical text cx cy radius rot = .ok ps := by
            rw [classical, hlp]
            dsimp only
            rw [if_neg (by simp [List.isEmpty_iff, hne])]
          rw [h0]
          constructor
          · intro he; cases he
          · intro hcl; exact absurd hcl hc
    · intro pts h
      cases hlp : letterPositions cx cy radius rot (clean_spare_text text) with
      | none => rw [classical, hlp] at h; cases h
      | some ps =>
        rw [classical, hlp] at h
        dsimp only at h
        by_cases hemp : ps.isEmpty
        · rw [if_pos hemp] at h; cases h
        · rw [if_neg hemp] at h
          injection h with h1
          subst h1
          simpa [List.isEmpty_iff] using hemp
    · intro hne hidx
      have hsome : ∀ c ∈ clean_spare_text text,
          (get_letter_position c cx cy radius rot).isSome := by
        intro c hcm
        obtain ⟨i, hi⟩ := Option.isSome_iff_exists.1 (hidx c hcm)
        rw [get_letter_position, hi]
        rfl
      obtain ⟨ps, hps, hlen⟩ := letterPositions_isSome cx cy radius rot _ hsome
      have hpsne : ps ≠ [] := by
        intro h0
        rw [h0] at hlen
        exact hne (List.eq_nil_of_length_eq_zero hlen.symm)
      refine ⟨ps, ?_, hpsne⟩
      rw [classical, hps]
      dsimp only
      rw [if_neg (by simp [List.isEmpty_iff, hpsne])]
  · -- numeric
    intro text cx cy radius rot
    rw [numeric,
      show normalize_text text "latin" =
        .ok ((preserve_special_characters (text.map pyUpperChar)).filter
          (fun c => LATIN_KEEP.contains c)) from rfl]
    dsimp only
    constructor
    · cases hv : ((preserve_special_characters (text.map pyUpperChar)).filter
          (fun c => LATIN_KEEP.contains c)).filterMap charNumericValue with
      | nil =>
        have hnv : numericValuesOf text = [] := hv
        simp [hnv]
      | cons a l =>
        have hnv : numericValuesOf text = a :: l := hv
        simp [hnv]
    · intro hvne
      cases hv : ((preserve_special_characters (text.map pyUpperChar)).filter
          (fun c => LATIN_KEEP.contains c)).filterMap charNumericValue with
      | nil =>
        have hnv : numericValuesOf text = [] := hv
        exact absurd hnv hvne
      | cons a l =>
        refine ⟨(a :: l).map (fun (v : ℕ) =>
          (cx + radius * Real.cos (((v : ℝ) / 9) * (2 * Real.pi) - Real.pi / 2),
           cy + radius * Real.sin (((v : ℝ) / 9) * (2 * Real.pi) - Real.pi / 2))), ?_, ?_⟩
        · rw [if_neg (by simp)]
        · simp
  · -- planetary
    intro text cx cy radius rot
    rw [planetary,
      show normalize_text text "latin" =
        .ok ((preserve_special_characters (text.map pyUpperChar)).filter
          (fun c => LATIN_KEEP.contains c)) from rfl]
    dsimp only
    have hiff : (((preserve_special_characters (text.map pyUpperChar)).filter
          (fun c => LATIN_KEEP.contains c)).flatMap (fun ch =>
            (planetMatchIdxs ch).map (fun (idx : ℕ) =>
              (cx + radius * Real.cos (((idx : ℝ) / (PLANETARY_MAP.length : ℝ)) * (2 * Real.pi) - Real.pi / 2),
               cy + radius * Real.sin (((idx : ℝ) / (PLANETARY_MAP.length : ℝ)) * (2 * Real.pi) - Real.pi / 2)))) = []
        ↔ planetMatchesOf text = []) := by
      rw [planetMatchesOf, List.flatMap_eq_nil_iff, List.flatMap_eq_nil_iff]
      constructor
      · intro h a ha
        exact List.map_eq_nil_iff.1 (h a ha)
      · intro h a ha
        rw [h a ha]
        rfl
    constructor
    · by_cases hm : planetMatchesOf text = []
      · rw [if_pos (List.isEmpty_iff.2 (hiff.2 hm))]
        simp [hm]
      · rw [if_neg (fun hc => hm (hiff.1 (List.isEmpty_iff.1 hc)))]
        simp [hm]
    · intro hm
      have hne2 : ¬ _ = _ := fun hc => hm (hiff.1 hc)
      refine ⟨_, ?_, hne2⟩
      rw [if_neg (fun hc => hne2 (List.isEmpty_iff.1 hc))]
  · -- kamea
    intro text cx cy radius rot planet alphabet square letters hsq halp
    rw [kamea, hsq]
    have hlet : (if alphabet = "latin" then some LETTERS_EXT
        else if alphabet = "hebrew" then some LETTERS_HEBREW else none) = some letters := by
      rcases halp with ⟨rfl, rfl⟩ | ⟨rfl, rfl⟩
      · rw [if_pos rfl]
      · rw [if_neg (by decide), if_pos rfl]
    rw [hlet]
    dsimp only
    constructor
    · cases hv : text.flatMap (kameaCellsFor square letters) with
      | nil => simp [hv]
      | cons a l => simp [hv]
    · intro hvne
      have hmapne : (text.flatMap (kameaCellsFor square letters)).map
          (cellCenter cx cy radius square.length) ≠ [] := by
        simp [hvne]
      refine ⟨_, ?_, hmapne⟩
      rw [if_neg (fun hc => hmapne (List.isEmpty_iff.1 hc))]
  · -- rosicrucian
    intro text cx cy radius rot
    rw [rosicrucian]
    have hiff : text.filterMap (rosePoint cx cy (radius / 6)) = [] ↔
        text.filter roseMatched = [] := by
      rw [List.filterMap_eq_nil_iff, List.filter_eq_nil_iff]
      constructor
      · intro h a ha
        simp [(rosePoint_eq_none cx cy (radius / 6) a).1 (h a ha)]
      · intro h a ha
        exact (rosePoint_eq_none cx cy (radius / 6) a).2 (by simpa using h a ha)
    constructor
    · by_cases hm : text.filter roseMatched = []
      · rw [if_pos (List.isEmpty_iff.2 (hiff.2 hm))]
        simp [hm]
      · rw [if_neg (fun hc => hm (hiff.1 (List.isEmpty_iff.1 hc)))]
        simp [hm]
    · intro hm
      have hne2 : ¬ _ = _ := fun hc => hm (hiff.1 hc)
      refine ⟨_, ?_, hne2⟩
      rw [if_neg (fun hc => hne2 (List.isEmpty_iff.1 hc))]

/-- Counterexample for C1 as stated: the character `Ø` is alphabetic and
survives Spare reduction (so points "would be produced"), yet `classical`
neither returns a point sequence nor raises the empty-result error — it
fails with the `KeyError` lookup failure of `alpha_index`. -/
theorem empty_result_gate_cex :
    clean_spare_text ['Ø'] ≠ [] ∧
    classical ['Ø'] 0 0 1 0 = .error keyErrorMsg ∧
    keyErrorMsg ≠ classicalEmptyMsg ∧
    ∀ pts, classical ['Ø'] 0 0 1 0 ≠ .ok pts := by
  have he : classical ['Ø'] 0 0 1 0 = .error keyErrorMsg := rfl
  refine ⟨by decide, he, by decide, ?_⟩
  intro pts h
  rw [he] at h
  cases h

/-- Witness for C1: every encoder returns a non-empty `ok` on a matching
non-empty input. -/
theorem empty_result_gate_witness :
    (∃ pts, classical "HI".toList 0 0 1 0 = .ok pts ∧ pts ≠ []) ∧
    (∃ pts, numeric "A".toList 0 0 1 0 = .ok pts ∧ pts ≠ []) ∧
    (∃ pts, planetary "A".toList 0 0 1 0 = .ok pts ∧ pts ≠ []) ∧
    (∃ pts, kamea "A".toList 0 0 1 0 "saturn" "latin" = .ok pts ∧ pts ≠ []) ∧
    (∃ pts, rosicrucian "A".toList 0 0 1 0 = .ok pts ∧ pts ≠ []) :=
  ⟨(empty_result_gate.1 "HI".toList 0 0 1 0).2.2 (by decide) (by decide),
   (empty_result_gate.2.1 "A".toList 0 0 1 0).2 (by decide),
   (empty_result_gate.2.2.1 "A".toList 0 0 1 0).2 (by decide),
   (empty_result_gate.2.2.2.1 "A".toList 0 0 1 0 "saturn" "latin"
      [[4,9,2],[3,5,7],[8,1,6]] LETTERS_EXT rfl (Or.inl ⟨rfl, rfl⟩)).2 (by decide),
   (empty_result_gate.2.2.2.2.1 "A".toList 0 0 1 0).2 (by decide)⟩
